import Mathlib

/-!
Shallow embedding of `src/graph/src/lib.rs` (bondedSolver substreams module).

Bytes are modelled as `Nat` (values < 256 in well-formed inputs); byte strings
as `List Nat`.  Rust panics (out-of-bounds indexing, `unwrap` on `None`) are
modelled by the `RunErr.trap` error of an `Except`; an explicit `Err` return of
a decoding error by `RunErr.decodeError` (the source never constructs one).
-/

namespace Bonded

/-- Failure modes of the Rust code: `trap` models a Rust panic (index out of
bounds, `unwrap()` on `None`); `decodeError` models an explicit decoding error
returned as `Err` to the caller. -/
inductive RunErr where
  | trap
  | decodeError
  deriving DecidableEq, Repr

/-- A log entry: emitting address (20 bytes), ordered topic words (32 bytes
each), opaque data payload. Mirrors `eth::v2::Log` as used by the source. -/
structure Log where
  address : List Nat
  topics : List (List Nat)
  data : List Nat
  deriving DecidableEq, Repr

/-- A block: number, Unix timestamp in seconds, and its ordered log sequence
(`block.logs()` iterates logs in block order). -/
structure Block where
  number : Nat
  timestampSeconds : Nat
  logs : List Log
  deriving DecidableEq, Repr

/-- `Vault` record from `pb::example`, fields as in the source. -/
structure Vault where
  address : String
  token0 : String
  token1 : String
  vault_id : Nat
  block_number : Nat
  timestamp : String
  factory : String
  deriving DecidableEq, Repr

/-- `Position` record from `pb::example`, fields as in the source. -/
structure Position where
  position_id : Nat
  owner : String
  amount0 : String
  amount1 : String
  block_number : Nat
  timestamp : String
  vault : String
  deriving DecidableEq, Repr

/-- `Events` message: the two ordered output sequences of `map_events`. -/
structure Events where
  vaults : List Vault
  positions : List Position
  deriving DecidableEq, Repr

/-- `const FACTORY_ADDRESS` from the source. -/
def FACTORY_ADDRESS : String := "0x008D4Dd934f9811E768F71AbCe59E193DC407CF8"

/-- `const VAULT_CREATED_SIG` from the source. -/
def VAULT_CREATED_SIG : String :=
  "0xb9f84b8e65164b14439ae3620519ba4d2af4c96b1396b1772946e897159a45a7"

/-- `const POSITION_OPENED_SIG` from the source. -/
def POSITION_OPENED_SIG : String :=
  "0x3c92d699a2f0cd9742c8a14eba5a8ad4b514a480ee8a297e3304a1e97c2b332d"

/-- Rust `str::trim_start_matches("0x")`: strips every leading `0x`. -/
def trimStartMatches0x : List Char → List Char
  | '0' :: 'x' :: rest => trimStartMatches0x rest
  | cs => cs

/-- Value of one hex digit character, accepting both cases
(as `hex::decode` does); `none` on a non-hex character. -/
def hexDigit? (c : Char) : Option Nat :=
  let n := c.toNat
  if 48 ≤ n ∧ n ≤ 57 then some (n - 48)
  else if 97 ≤ n ∧ n ≤ 102 then some (n - 87)
  else if 65 ≤ n ∧ n ≤ 70 then some (n - 55)
  else none

/-- Rust `hex::decode`: pairs of hex digits to bytes; fails on odd length or a
non-hex character. -/
def hexDecodeList : List Char → Option (List Nat)
  | [] => some []
  | [_] => none
  | a :: b :: rest =>
    match hexDigit? a, hexDigit? b, hexDecodeList rest with
    | some hi, some lo, some tail => some ((hi * 16 + lo) :: tail)
    | _, _, _ => none

/-- Lowercase hex digit character for a value `0..15`. -/
def hexChar (n : Nat) : Char :=
  if n < 10 then Char.ofNat (48 + n) else Char.ofNat (87 + n)

/-- `substreams::Hex` display of a byte string: two lowercase hex digits per
byte. -/
def bytesToHex (bs : List Nat) : String :=
  String.mk (bs.foldr (fun b acc => hexChar (b / 16) :: hexChar (b % 16) :: acc) [])

/-- `format!("0x\x7b\x7d", Hex(bs))` from the source. -/
def hex0x (bs : List Nat) : String := "0x" ++ bytesToHex bs

/-- The byte string `VAULT_CREATED_SIG` decodes to (32 bytes). -/
def vaultSigBytes : List Nat :=
  (hexDecodeList (trimStartMatches0x VAULT_CREATED_SIG.data)).getD []

/-- The byte string `POSITION_OPENED_SIG` decodes to (32 bytes). -/
def positionSigBytes : List Nat :=
  (hexDecodeList (trimStartMatches0x POSITION_OPENED_SIG.data)).getD []

/-- `is_vault_created_event`: reads `log.topics[0]` (a Rust panic — `trap` —
when there is no topic), decodes the signature constant (`unwrap` panics if
decoding failed), and compares byte-for-byte. -/
def is_vault_created_event (log : Log) : Except RunErr Bool :=
  match log.topics.head? with
  | none => .error .trap
  | some topic0 =>
    match hexDecodeList (trimStartMatches0x VAULT_CREATED_SIG.data) with
    | none => .error .trap
    | some sig => .ok (decide (topic0 = sig))

/-- `is_position_opened_event`: same shape as `is_vault_created_event` with the
position-opened signature constant. -/
def is_position_opened_event (log : Log) : Except RunErr Bool :=
  match log.topics.head? with
  | none => .error .trap
  | some topic0 =>
    match hexDecodeList (trimStartMatches0x POSITION_OPENED_SIG.data) with
    | none => .error .trap
    | some sig => .ok (decide (topic0 = sig))

/-- Big-endian value of a byte string (`u64::from_be_bytes` on 8 bytes). -/
def beBytesToNat (bs : List Nat) : Nat := bs.foldl (fun acc b => acc * 256 + b) 0

/-- `decode_uint256`: slices `data[24..32]` (a Rust panic — `trap` — when the
payload is shorter than 32 bytes) and interprets the 8 bytes big-endian. -/
def decode_uint256 (data : List Nat) : Except RunErr Nat :=
  if 32 ≤ data.length then .ok (beBytesToNat ((data.drop 24).take 8))
  else .error .trap

/-- Construction of the `Vault` struct literal in `map_events`: accesses
`topics[1]` and `topics[2]` (panic — `trap` — when missing), then
`decode_uint256(&log.data)`, in source field order. -/
def makeVault (blk : Block) (log : Log) : Except RunErr Vault :=
  match log.topics.get? 1, log.topics.get? 2 with
  | some t1, some t2 =>
    match decode_uint256 log.data with
    | .error e => .error e
    | .ok vid =>
      .ok { address := hex0x log.address
            token0 := hex0x t1
            token1 := hex0x t2
            vault_id := vid
            block_number := blk.number
            timestamp := Nat.repr blk.timestampSeconds
            factory := FACTORY_ADDRESS }
  | _, _ => .error .trap

/-- Construction of the `Position` struct literal in `map_events`:
`decode_uint256(&log.data)` first (source field order), then `topics[1..3]`
(panic — `trap` — when missing). -/
def makePosition (blk : Block) (log : Log) : Except RunErr Position :=
  match decode_uint256 log.data with
  | .error e => .error e
  | .ok pid =>
    match log.topics.get? 1, log.topics.get? 2, log.topics.get? 3 with
    | some t1, some t2, some t3 =>
      .ok { position_id := pid
            owner := hex0x t1
            amount0 := hex0x t2
            amount1 := hex0x t3
            block_number := blk.number
            timestamp := Nat.repr blk.timestampSeconds
            vault := hex0x log.address }
    | _, _, _ => .error .trap

/-- The body of the `for log in block.logs()` loop of `map_events`: both
classification tests run on every log, each pushing one record on a match. -/
def processLog (blk : Block) (log : Log) (vaults : List Vault)
    (positions : List Position) : Except RunErr (List Vault × List Position) :=
  match is_vault_created_event log with
  | .error e => .error e
  | .ok isV =>
    match (if isV then (makeVault blk log).map (fun v => vaults ++ [v])
           else .ok vaults) with
    | .error e => .error e
    | .ok vaults1 =>
      match is_position_opened_event log with
      | .error e => .error e
      | .ok isP =>
        match (if isP then (makePosition blk log).map (fun p => positions ++ [p])
               else .ok positions) with
        | .error e => .error e
        | .ok positions1 => .ok (vaults1, positions1)

/-- The loop of `map_events`, threading the two accumulator vectors through the
block's logs in order. -/
def mapEventsGo (blk : Block) : List Log → List Vault → List Position →
    Except RunErr (List Vault × List Position)
  | [], vaults, positions => .ok (vaults, positions)
  | log :: rest, vaults, positions =>
    match processLog blk log vaults positions with
    | .error e => .error e
    | .ok (vaults1, positions1) => mapEventsGo blk rest vaults1 positions1

/-- `map_events`: scans the block's logs in order and returns the two record
sequences; any Rust panic along the way aborts the whole block with no
partial output. -/
def map_events (blk : Block) : Except RunErr Events :=
  (mapEventsGo blk blk.logs [] []).map (fun vp => { vaults := vp.1, positions := vp.2 })

/-- The `Vault` record `map_events` emits for a log, when the log matches the
vault-created signature and decodes cleanly; `none` otherwise.  Used to state
order preservation. -/
def vaultOf (blk : Block) (log : Log) : Option Vault :=
  match is_vault_created_event log with
  | .ok true => (makeVault blk log).toOption
  | _ => none

/-- The `Position` record `map_events` emits for a log, when the log matches
the position-opened signature and decodes cleanly; `none` otherwise. -/
def positionOf (blk : Block) (log : Log) : Option Position :=
  match is_position_opened_event log with
  | .ok true => (makePosition blk log).toOption
  | _ => none

/-- A typed field value of an entity row (`set` accepts strings and u64s
here). -/
inductive FieldValue where
  | str (s : String)
  | u64 (n : Nat)
  deriving DecidableEq, Repr

/-- Modelled from the spec: one entity-change row — the `Tables` sink of the
external `substreams-entity-change` crate (not part of this repository) is,
per §3/§4.2 of the spec, an ordered sequence of (table, key, field-map)
triples. -/
structure EntityRow where
  table : String
  key : String
  fields : List (String × FieldValue)
  deriving DecidableEq, Repr

/-- The row `graph_out` builds for one `Vault` record: table "Vault", key the
vault's address string, `set` calls in source order. -/
def vaultRow (v : Vault) : EntityRow :=
  { table := "Vault"
    key := v.address
    fields := [("address", .str v.address), ("token0", .str v.token0),
      ("token1", .str v.token1), ("vaultId", .u64 v.vault_id),
      ("timestamp", .str v.timestamp), ("blockNumber", .u64 v.block_number),
      ("factory", .str v.factory)] }

/-- The row `graph_out` builds for one `Position` record: table "Position",
key the decimal string of `position_id`, `set` calls in source order. -/
def positionRow (p : Position) : EntityRow :=
  { table := "Position"
    key := Nat.repr p.position_id
    fields := [("positionId", .u64 p.position_id), ("owner", .str p.owner),
      ("amount0", .str p.amount0), ("amount1", .str p.amount1),
      ("timestamp", .str p.timestamp), ("blockNumber", .u64 p.block_number),
      ("vault", .str p.vault)] }

/-- `graph_out`: iterates the vault records, then the position records, in
their sequence order, creating one row per record.  Modelled from the spec:
`create_row` on the external `Tables` sink appends one ordered row
(spec §4.2); the function itself has no failure path and returns `Ok`. -/
def graph_out (events : Events) : Except RunErr (List EntityRow) :=
  .ok (events.vaults.map vaultRow ++ events.positions.map positionRow)

/-! Concrete inputs used by witnesses and counterexamples. -/

/-- A log matching the vault-created signature but with only 2 topics. -/
def c1Log : Log :=
  { address := List.replicate 20 0
    topics := [vaultSigBytes, List.replicate 32 0]
    data := List.replicate 32 0 }

/-- A block whose only log is the malformed `c1Log`. -/
def c1Block : Block := { number := 1, timestampSeconds := 0, logs := [c1Log] }

/-- A log matching the vault-created signature, with enough topics but fewer
than 32 bytes of data. -/
def c1ShortDataLog : Log :=
  { address := List.replicate 20 0
    topics := [vaultSigBytes, List.replicate 32 0, List.replicate 32 0]
    data := [0, 0, 0] }

/-- A block whose only log is the short-data `c1ShortDataLog`. -/
def c1ShortDataBlock : Block :=
  { number := 1, timestampSeconds := 0, logs := [c1ShortDataLog] }

/-- A well-formed vault-created log: topics `[SIG_VAULT, T1, T2]`, data the
32-byte big-endian encoding of 42. -/
def c2Log : Log :=
  { address := List.replicate 20 171
    topics := [vaultSigBytes, List.replicate 32 1, List.replicate 32 2]
    data := (List.replicate 31 0 ++ [42]) ++ [] }

/-- A block whose only log is `c2Log`. -/
def c2Block : Block := { number := 9, timestampSeconds := 1700000000, logs := [c2Log] }

/-- The `Events` value `map_events` returns on `c2Block`. -/
def c2Events : Events := (map_events c2Block).toOption.getD ⟨[], []⟩

/-- A well-formed position-opened log: topics `[SIG_POSITION, OWNER, A0, A1]`,
data the 32-byte big-endian encoding of 7. -/
def c3Log : Log :=
  { address := List.replicate 20 205
    topics := [positionSigBytes, List.replicate 32 3, List.replicate 32 4,
      List.replicate 32 5]
    data := (List.replicate 31 0 ++ [7]) ++ [] }

/-- A block whose only log is `c3Log`. -/
def c3Block : Block := { number := 9, timestampSeconds := 1700000000, logs := [c3Log] }

/-- The `Events` value `map_events` returns on `c3Block`. -/
def c3Events : Events := (map_events c3Block).toOption.getD ⟨[], []⟩

/-- A log whose first topic matches neither signature. -/
def c5Log : Log := { address := List.replicate 20 1, topics := [[9]], data := [] }

/-- A block holding only the non-matching `c5Log`. -/
def c5Block : Block := { number := 3, timestampSeconds := 5, logs := [c5Log] }

/-- A one-topic log used to witness classification totality/exclusivity. -/
def c6Log : Log := { address := [], topics := [[0]], data := [] }

/-- A one-topic log used to witness classification totality. -/
def c10Log : Log := { address := [], topics := [[1]], data := [] }

/-- A block with one vault-created log followed by one position-opened log. -/
def c7Block : Block := { number := 9, timestampSeconds := 1700000000, logs := [c2Log, c3Log] }

/-- The `Events` value `map_events` returns on `c7Block`. -/
def c7Events : Events := (map_events c7Block).toOption.getD ⟨[], []⟩

/-! Helper lemmas shared by the claim theorems. -/

/-- The vault-created signature constant decodes to its 32 bytes. -/
theorem sig_vault_decode :
    hexDecodeList (trimStartMatches0x VAULT_CREATED_SIG.data) = some vaultSigBytes := rfl

/-- The position-opened signature constant decodes to its 32 bytes. -/
theorem sig_position_decode :
    hexDecodeList (trimStartMatches0x POSITION_OPENED_SIG.data) = some positionSigBytes := rfl

/-- On a log with a first topic, `is_vault_created_event` is the byte-for-byte
comparison with the decoded signature. -/
theorem is_vault_eval (log : Log) (t0 : List Nat) (h : log.topics.head? = some t0) :
    is_vault_created_event log = .ok (decide (t0 = vaultSigBytes)) := by
  unfold is_vault_created_event
  rw [h, sig_vault_decode]

/-- On a log with a first topic, `is_position_opened_event` is the
byte-for-byte comparison with the decoded signature. -/
theorem is_position_eval (log : Log) (t0 : List Nat) (h : log.topics.head? = some t0) :
    is_position_opened_event log = .ok (decide (t0 = positionSigBytes)) := by
  unfold is_position_opened_event
  rw [h, sig_position_decode]

/-- `decode_uint256` on a payload split as 24 + 8 + rest bytes returns the
big-endian value of the middle 8 bytes. -/
theorem decode_split (pre mid rest : List Nat) (hpre : pre.length = 24)
    (hmid : mid.length = 8) :
    decode_uint256 (pre ++ (mid ++ rest)) = .ok (beBytesToNat mid) := by
  unfold decode_uint256
  rw [if_pos]
  · congr 1
    have hdrop : (pre ++ (mid ++ rest)).drop 24 = mid ++ rest := by
      rw [← hpre, List.drop_left]
    rw [hdrop, ← hmid, List.take_left]
  · simp [hpre, hmid]
    omega

/-- A successful `processLog` appends exactly the records `vaultOf` and
`positionOf` describe. -/
theorem processLog_ok {blk : Block} {log : Log} {vs vs1 : List Vault}
    {ps ps1 : List Position}
    (h : processLog blk log vs ps = .ok (vs1, ps1)) :
    vs1 = vs ++ (vaultOf blk log).toList ∧ ps1 = ps ++ (positionOf blk log).toList := by
  unfold processLog at h
  split at h
  · simp at h
  case _ isV heq =>
    split at h
    · simp at h
    case _ vaults1 heq2 =>
      split at h
      · simp at h
      case _ isP heq3 =>
        split at h
        · simp at h
        case _ positions1 heq4 =>
          simp only [Except.ok.injEq, Prod.mk.injEq] at h
          obtain ⟨h1, h2⟩ := h
          constructor
          · cases isV with
            | false =>
              simp only [if_neg Bool.false_ne_true, Except.ok.injEq] at heq2
              simp [vaultOf, heq, ← h1, ← heq2]
            | true =>
              rcases hmv : makeVault blk log with e | v
              · rw [hmv] at heq2; simp [Except.map] at heq2
              · rw [hmv] at heq2
                simp only [Except.map, if_true, reduceIte, Except.ok.injEq] at heq2
                simp [vaultOf, heq, hmv, Except.toOption, ← h1, ← heq2]
          · cases isP with
            | false =>
              simp only [if_neg Bool.false_ne_true, Except.ok.injEq] at heq4
              simp [positionOf, heq3, ← h2, ← heq4]
            | true =>
              rcases hmp : makePosition blk log with e | p
              · rw [hmp] at heq4; simp [Except.map] at heq4
              · rw [hmp] at heq4
                simp only [Except.map, if_true, reduceIte, Except.ok.injEq] at heq4
                simp [positionOf, heq3, hmp, Except.toOption, ← h2, ← heq4]

/-- A successful run of the `map_events` loop appends, in input log order, the
records of the logs it scanned. -/
theorem mapEventsGo_ok {blk : Block} : ∀ (logs : List Log) (vs : List Vault)
    (ps : List Position) (vs1 : List Vault) (ps1 : List Position),
    mapEventsGo blk logs vs ps = .ok (vs1, ps1) →
    vs1 = vs ++ logs.filterMap (vaultOf blk) ∧
    ps1 = ps ++ logs.filterMap (positionOf blk)
  | [], vs, ps, vs1, ps1, h => by
    simp only [mapEventsGo, Except.ok.injEq, Prod.mk.injEq] at h
    simp [← h.1, ← h.2]
  | log :: rest, vs, ps, vs1, ps1, h => by
    rw [mapEventsGo] at h
    rcases hp : processLog blk log vs ps with e | vp
    · rw [hp] at h; simp at h
    · rcases vp with ⟨vsm, psm⟩
      rw [hp] at h
      simp only at h
      obtain ⟨ih1, ih2⟩ := mapEventsGo_ok rest vsm psm vs1 ps1 h
      obtain ⟨g1, g2⟩ := processLog_ok hp
      constructor
      · rw [ih1, g1]
        rcases hvo : vaultOf blk log with _ | v <;>
          simp [List.filterMap_cons, hvo]
      · rw [ih2, g2]
        rcases hpo : positionOf blk log with _ | p <;>
          simp [List.filterMap_cons, hpo]

/-- A successful `map_events` returns exactly the per-log records, in the
block's input log order. -/
theorem map_events_ok {blk : Block} {ev : Events}
    (h : map_events blk = .ok ev) :
    ev.vaults = blk.logs.filterMap (vaultOf blk) ∧
    ev.positions = blk.logs.filterMap (positionOf blk) := by
  unfold map_events at h
  rcases hg : mapEventsGo blk blk.logs [] [] with e | vp
  · rw [hg] at h; simp [Except.map] at h
  · rcases vp with ⟨vsm, psm⟩
    rw [hg] at h
    simp only [Except.map, Except.ok.injEq] at h
    obtain ⟨h1, h2⟩ := mapEventsGo_ok blk.logs [] [] vsm psm hg
    rw [← h]
    simp only [List.nil_append] at h1 h2
    exact ⟨h1, h2⟩

/-! Claim theorems. -/

/-- C1: the spec requires a malformed matching log (too few topics, or fewer
than 32 data bytes) to fail the block with a decoding error returned to the
caller.  The code instead panics on the out-of-bounds access (`topics[2]`
resp. `data[24..32]`): processing of the whole block aborts with a trap, not
with a returned decoding error, and no partial output is produced. -/
theorem malformed_log_panics_c1 :
    map_events c1Block = .error RunErr.trap
    ∧ map_events c1ShortDataBlock = .error RunErr.trap
    ∧ RunErr.trap ≠ RunErr.decodeError :=
  ⟨rfl, rfl, by decide⟩

/-- C2: in any block whose processing succeeds, a log with topics
`[SIG_VAULT, T1, T2]` and first data word the 32-byte big-endian encoding of
42 yields a Vault record with `token0 = "0x" + hex(T1)`,
`token1 = "0x" + hex(T2)`, `vault_id = 42` and the constant factory
address. -/
theorem map_events_vault_c2 (blk : Block) (ev : Events) (log : Log)
    (t1 t2 rest : List Nat)
    (hok : map_events blk = .ok ev)
    (hmem : log ∈ blk.logs)
    (htop : log.topics = [vaultSigBytes, t1, t2])
    (hdata : log.data = (List.replicate 31 0 ++ [42]) ++ rest) :
    ∃ v ∈ ev.vaults, v.token0 = hex0x t1 ∧ v.token1 = hex0x t2 ∧
      v.vault_id = 42 ∧ v.factory = "0x008D4Dd934f9811E768F71AbCe59E193DC407CF8" := by
  obtain ⟨hvs, _⟩ := map_events_ok hok
  have h0 : log.topics.head? = some vaultSigBytes := by rw [htop]; rfl
  have hsplit : (List.replicate 31 0 ++ [42]) ++ rest
      = List.replicate 24 0 ++ ((List.replicate 7 0 ++ [42]) ++ rest) := by
    have h31 : (31 : Nat) = 24 + 7 := by norm_num
    rw [h31, List.replicate_add]
    simp [List.append_assoc]
  have h42 : beBytesToNat (List.replicate 7 0 ++ [42]) = 42 := by decide
  have hdec : decode_uint256 log.data = .ok 42 := by
    rw [hdata, hsplit,
      decode_split (List.replicate 24 0) (List.replicate 7 0 ++ [42]) rest
        (by simp) (by simp), h42]
  have hmk : makeVault blk log = .ok
      { address := hex0x log.address, token0 := hex0x t1, token1 := hex0x t2,
        vault_id := 42, block_number := blk.number,
        timestamp := Nat.repr blk.timestampSeconds, factory := FACTORY_ADDRESS } := by
    unfold makeVault
    rw [htop]
    simp [hdec]
  have htrue : is_vault_created_event log = .ok true := by
    rw [is_vault_eval log vaultSigBytes h0]
    simp
  have hvo : vaultOf blk log = some
      { address := hex0x log.address, token0 := hex0x t1, token1 := hex0x t2,
        vault_id := 42, block_number := blk.number,
        timestamp := Nat.repr blk.timestampSeconds, factory := FACTORY_ADDRESS } := by
    unfold vaultOf
    rw [htrue, hmk]
    rfl
  rw [hvs]
  exact ⟨_, List.mem_filterMap.mpr ⟨log, hmem, hvo⟩, rfl, rfl, rfl, rfl⟩

/-- C2 witness: the theorem applied to a concrete one-log block. -/
theorem map_events_vault_c2_witness :
    ∃ v ∈ c2Events.vaults, v.token0 = hex0x (List.replicate 32 1)
      ∧ v.token1 = hex0x (List.replicate 32 2) ∧ v.vault_id = 42
      ∧ v.factory = "0x008D4Dd934f9811E768F71AbCe59E193DC407CF8" :=
  map_events_vault_c2 c2Block c2Events c2Log (List.replicate 32 1)
    (List.replicate 32 2) [] rfl (List.mem_singleton.mpr rfl) rfl rfl

/-- C3: in any block whose processing succeeds, a log with topics
`[SIG_POSITION, OWNER, A0, A1]` and first data word encoding 7 yields a
Position record with `position_id = 7`, `owner = "0x" + hex(OWNER)` and
`vault = "0x" + hex(log.address)`. -/
theorem map_events_position_c3 (blk : Block) (ev : Events) (log : Log)
    (t1 t2 t3 rest : List Nat)
    (hok : map_events blk = .ok ev)
    (hmem : log ∈ blk.logs)
    (htop : log.topics = [positionSigBytes, t1, t2, t3])
    (hdata : log.data = (List.replicate 31 0 ++ [7]) ++ rest) :
    ∃ p ∈ ev.positions, p.position_id = 7 ∧ p.owner = hex0x t1 ∧
      p.vault = hex0x log.address := by
  obtain ⟨_, hps⟩ := map_events_ok hok
  have h0 : log.topics.head? = some positionSigBytes := by rw [htop]; rfl
  have hsplit : (List.replicate 31 0 ++ [7]) ++ rest
      = List.replicate 24 0 ++ ((List.replicate 7 0 ++ [7]) ++ rest) := by
    have h31 : (31 : Nat) = 24 + 7 := by norm_num
    rw [h31, List.replicate_add]
    simp [List.append_assoc]
  have h7 : beBytesToNat (List.replicate 7 0 ++ [7]) = 7 := by decide
  have hdec : decode_uint256 log.data = .ok 7 := by
    rw [hdata, hsplit,
      decode_split (List.replicate 24 0) (List.replicate 7 0 ++ [7]) rest
        (by simp) (by simp), h7]
  have hmk : makePosition blk log = .ok
      { position_id := 7, owner := hex0x t1, amount0 := hex0x t2,
        amount1 := hex0x t3, block_number := blk.number,
        timestamp := Nat.repr blk.timestampSeconds, vault := hex0x log.address } := by
    unfold makePosition
    rw [htop, hdec]
    simp
  have htrue : is_position_opened_event log = .ok true := by
    rw [is_position_eval log positionSigBytes h0]
    simp
  have hpo : positionOf blk log = some
      { position_id := 7, owner := hex0x t1, amount0 := hex0x t2,
        amount1 := hex0x t3, block_number := blk.number,
        timestamp := Nat.repr blk.timestampSeconds, vault := hex0x log.address } := by
    unfold positionOf
    rw [htrue, hmk]
    rfl
  rw [hps]
  exact ⟨_, List.mem_filterMap.mpr ⟨log, hmem, hpo⟩, rfl, rfl, rfl⟩

/-- C3 witness: the theorem applied to a concrete one-log block. -/
theorem map_events_position_c3_witness :
    ∃ p ∈ c3Events.positions, p.position_id = 7 ∧ p.owner = hex0x (List.replicate 32 3)
      ∧ p.vault = hex0x c3Log.address :=
  map_events_position_c3 c3Block c3Events c3Log (List.replicate 32 3)
    (List.replicate 32 4) (List.replicate 32 5) [] rfl (List.mem_singleton.mpr rfl) rfl rfl

/-- C4: for every data payload of at least 32 bytes (decomposed as 24 bytes,
8 bytes, and a remainder), `decode_uint256` returns the big-endian value of
bytes 24..32 — independent of the first 24 bytes and of anything beyond byte
32 — with an all-zero word decoding to 0 and bytes 24..32 all `0xFF`
decoding to `2^64 - 1` with no overflow. -/
theorem decode_uint256_truncating_c4 (pre mid rest : List Nat)
    (hpre : pre.length = 24) (hmid : mid.length = 8) :
    decode_uint256 (pre ++ (mid ++ rest)) = .ok (beBytesToNat mid)
    ∧ beBytesToNat (List.replicate 8 0) = 0
    ∧ beBytesToNat (List.replicate 8 255) = 2 ^ 64 - 1 :=
  ⟨decode_split pre mid rest hpre hmid, by decide, by decide⟩

/-- C4 witness: the theorem applied at a concrete 32-byte payload with
nonzero high-order bytes and maximal low bytes. -/
theorem decode_uint256_truncating_c4_witness :
    decode_uint256 (List.replicate 24 7 ++ (List.replicate 8 255 ++ [])) =
      .ok (beBytesToNat (List.replicate 8 255))
    ∧ beBytesToNat (List.replicate 8 0) = 0
    ∧ beBytesToNat (List.replicate 8 255) = 2 ^ 64 - 1 :=
  decode_uint256_truncating_c4 (List.replicate 24 7) (List.replicate 8 255) []
    (by simp) (by simp)

/-- C5: a log with at least one topic whose first topic matches neither
signature contributes no record to either sequence and raises no error: the
loop body returns the accumulators unchanged. -/
theorem non_matching_log_ignored_c5 (blk : Block) (log : Log) (t0 : List Nat)
    (vs : List Vault) (ps : List Position)
    (h : log.topics.head? = some t0)
    (hv : t0 ≠ vaultSigBytes) (hp : t0 ≠ positionSigBytes) :
    processLog blk log vs ps = .ok (vs, ps)
    ∧ vaultOf blk log = none ∧ positionOf blk log = none := by
  have ev := is_vault_eval log t0 h
  have ep := is_position_eval log t0 h
  rw [decide_eq_false hv] at ev
  rw [decide_eq_false hp] at ep
  refine ⟨?_, ?_, ?_⟩
  · simp [processLog, ev, ep]
  · simp [vaultOf, ev]
  · simp [positionOf, ep]

/-- C5 witness: the theorem applied to a concrete non-matching log. -/
theorem non_matching_log_ignored_c5_witness :
    processLog c5Block c5Log [] [] = .ok ([], [])
    ∧ vaultOf c5Block c5Log = none ∧ positionOf c5Block c5Log = none :=
  non_matching_log_ignored_c5 c5Block c5Log [9] [] [] rfl (by decide) (by decide)

/-- C6: the two 32-byte signature constants are distinct, and for a log with
at least one topic the two classification predicates never both hold. -/
theorem classification_exclusive_c6 (log : Log) (t0 : List Nat)
    (h : log.topics.head? = some t0) :
    vaultSigBytes ≠ positionSigBytes ∧
    ¬(is_vault_created_event log = .ok true ∧ is_position_opened_event log = .ok true) := by
  refine ⟨by decide, ?_⟩
  rintro ⟨hv, hp⟩
  rw [is_vault_eval log t0 h] at hv
  rw [is_position_eval log t0 h] at hp
  simp only [Except.ok.injEq, decide_eq_true_eq] at hv hp
  subst hv
  exact absurd hp (by decide)

/-- C6 witness: the theorem applied to a concrete one-topic log. -/
theorem classification_exclusive_c6_witness :
    vaultSigBytes ≠ positionSigBytes ∧
    ¬(is_vault_created_event c6Log = .ok true ∧ is_position_opened_event c6Log = .ok true) :=
  classification_exclusive_c6 c6Log [0] rfl

/-- C7: on success, the vault sequence and the position sequence list their
records in the block's input log order (each is the in-order `filterMap` of
the per-log extraction over the logs), and `graph_out` emits the vault rows
then the position rows in those same orders. -/
theorem order_preservation_c7 (blk : Block) (ev : Events)
    (hok : map_events blk = .ok ev) :
    ev.vaults = blk.logs.filterMap (vaultOf blk)
    ∧ ev.positions = blk.logs.filterMap (positionOf blk)
    ∧ graph_out ev = .ok (ev.vaults.map vaultRow ++ ev.positions.map positionRow) := by
  obtain ⟨h1, h2⟩ := map_events_ok hok
  exact ⟨h1, h2, rfl⟩

/-- C7 witness: the theorem applied to a concrete two-log block. -/
theorem order_preservation_c7_witness :
    c7Events.vaults = c7Block.logs.filterMap (vaultOf c7Block)
    ∧ c7Events.positions = c7Block.logs.filterMap (positionOf c7Block)
    ∧ graph_out c7Events =
        .ok (c7Events.vaults.map vaultRow ++ c7Events.positions.map positionRow) :=
  order_preservation_c7 c7Block c7Events rfl

/-- C8: a block with zero logs maps to two empty sequences, and `graph_out`
on that result emits zero rows. -/
theorem empty_block_c8 (n ts : Nat) :
    map_events { number := n, timestampSeconds := ts, logs := [] } =
      .ok { vaults := [], positions := [] }
    ∧ graph_out { vaults := [], positions := [] } = .ok [] :=
  ⟨rfl, rfl⟩

/-- C9: `graph_out` always returns `Ok`, producing exactly one row per
Vault record (table "Vault", keyed by the vault's address string) and one
per Position record (table "Position", keyed by the decimal string of
`position_id`). -/
theorem graph_out_rows_c9 (ev : Events) :
    ∃ rows, graph_out ev = .ok rows
      ∧ rows = ev.vaults.map vaultRow ++ ev.positions.map positionRow
      ∧ rows.length = ev.vaults.length + ev.positions.length
      ∧ (∀ v ∈ ev.vaults, (vaultRow v).table = "Vault" ∧ (vaultRow v).key = v.address)
      ∧ (∀ p ∈ ev.positions, (positionRow p).table = "Position"
          ∧ (positionRow p).key = Nat.repr p.position_id) :=
  ⟨_, rfl, rfl, by simp, fun v _ => ⟨rfl, rfl⟩, fun p _ => ⟨rfl, rfl⟩⟩

/-- C10: the classification predicates are total on logs with at least one
topic — the signature constants, after stripping `0x`, hex-decode to exactly
32 bytes, so the `unwrap` calls never panic and each predicate returns a
boolean. -/
theorem classification_total_c10 (log : Log) (t0 : List Nat)
    (h : log.topics.head? = some t0) :
    (hexDecodeList (trimStartMatches0x VAULT_CREATED_SIG.data) = some vaultSigBytes
      ∧ vaultSigBytes.length = 32)
    ∧ (hexDecodeList (trimStartMatches0x POSITION_OPENED_SIG.data) = some positionSigBytes
      ∧ positionSigBytes.length = 32)
    ∧ (∃ b, is_vault_created_event log = .ok b)
    ∧ (∃ b, is_position_opened_event log = .ok b) :=
  ⟨⟨sig_vault_decode, by decide⟩, ⟨sig_position_decode, by decide⟩,
    ⟨_, is_vault_eval log t0 h⟩, ⟨_, is_position_eval log t0 h⟩⟩

/-- C10 witness: the theorem applied to a concrete one-topic log. -/
theorem classification_total_c10_witness :
    (hexDecodeList (trimStartMatches0x VAULT_CREATED_SIG.data) = some vaultSigBytes
      ∧ vaultSigBytes.length = 32)
    ∧ (hexDecodeList (trimStartMatches0x POSITION_OPENED_SIG.data) = some positionSigBytes
      ∧ positionSigBytes.length = 32)
    ∧ (∃ b, is_vault_created_event c10Log = .ok b)
    ∧ (∃ b, is_position_opened_event c10Log = .ok b) :=
  classification_total_c10 c10Log [1] rfl

end Bonded
